import Mathlib

/-!
# Verification of the `konfi` configuration language core

A shallow embedding of `src/konfi/src/{ast.rs, eval.rs, parser.rs, strings.rs}`:
the expression AST, the tree-walking evaluator with its context-chain lookup
protocol, and the recursive-descent precedence-climbing parser.

Modelling conventions:
* `Rc<RefCell<Rec>>` (a shared, mutable runtime record) is modelled as an
  address (`Nat`) into an explicit store; cloning the `Rc` copies the address,
  `borrow_mut` mutates the store at that address.  Two distinct allocations get
  two distinct addresses, so address equality models `Rc` object identity.
* The store additionally carries a write log recording every `Rec::setattr`
  call `(address, field, value)` in order.  The log is purely observational:
  no evaluator code path reads it.
* Rust `i64` is modelled as `Int` with explicit bounds checks; arithmetic
  follows a debug build (panic on overflow; `/` panics on division by zero
  in every build profile).  `Int.tdiv` is Rust's truncating `i64` division.
* Rust `f64` payloads are modelled by exact rationals (`Rat`).  Every `f64`
  computation appearing in this development (`1 + 2.5`, promotions of small
  integers) is exact in `f64`, where the two agree.
* Rust panics (`todo!()`, arithmetic overflow, division by zero) are a
  distinct evaluation outcome `Res.panicked`, separate from `Err(EvalError)`.
* Evaluation and parsing take a fuel parameter; `spin` means fuel ran out and
  models non-termination (the source has no cycle detection).
-/

namespace Konfi

/-! ## AST (ast.rs) -/

/-- `ast::UnOp`. -/
inductive UnOp where
  | unPlus
  | unMinus
  | not
deriving DecidableEq, Repr

/-- `ast::BinOp`. -/
inductive BinOp where
  | times
  | div
  | plus
  | minus
  | shiftLeft
  | shiftRight
  | lessThan
  | greaterThan
  | lessEq
  | greaterEq
  | eq
  | notEq
  | logicalAnd
  | logicalOr
deriving DecidableEq, Repr

/-- `ast::Literal`.  `Double` carries a `Rat` modelling the `f64` payload. -/
inductive Literal where
  | nil
  | int (i : Int)
  | double (d : Rat)
  | str (s : String)
deriving DecidableEq, Repr

mutual
/-- `ast::Expr`.  `Expr::Rec(ast::Rec)` is `recE`; the `let_vars` member of
`ast::Rec` is omitted: the parser always constructs it as the empty vector and
no evaluator code reads it.  `Fun`/`Call` payloads are kept. -/
inductive Expr where
  | literal (l : Literal)
  | var (name : String)
  | fieldAcc (base : Expr) (name : String)
  | unExpr (op : UnOp) (e : Expr)
  | binExpr (le : Expr) (op : BinOp) (re : Expr)
  | recE (fields : Fields)
  | call (f : Expr) (args : Args)
  | funE (params : List String) (body : Expr)
deriving DecidableEq, Repr
/-- The field list of an `ast::Rec`: a sequence of `ast::Field`
`(name, value)` in declaration order. -/
inductive Fields where
  | nil
  | cons (name : String) (value : Expr) (rest : Fields)
deriving DecidableEq, Repr
/-- Argument vector of an `ast::Call`. -/
inductive Args where
  | nil
  | cons (e : Expr) (rest : Args)
deriving DecidableEq, Repr
end

/-- `Vec::iter().find(|fld| fld.name == field)` over a field list. -/
def Fields.find : Fields → String → Option (String × Expr)
  | .nil, _ => none
  | .cons n v rest, field => if n = field then some (n, v) else Fields.find rest field

/-! ## Runtime values and records (eval.rs) -/

/-- `eval::Val`.  `Rec(Rc<RefCell<Rec>>)` is `recV addr`: an address into the
store.  `Timestamp`/`Duration` payloads are omitted: no evaluator operation
ever constructs or inspects them (`to_bool`/`Display` hit `todo!()`). -/
inductive Val where
  | nil
  | recV (addr : Nat)
  | bool (b : Bool)
  | int (i : Int)
  | double (d : Rat)
  | str (s : String)
  | timestamp
  | duration
deriving DecidableEq, Repr

/-- `Val::typ`. -/
def Val.typ : Val → String
  | .nil => "nil"
  | .recV _ => "rec"
  | .int _ => "int"
  | .double _ => "double"
  | .str _ => "str"
  | .timestamp => "timestamp"
  | .duration => "duration"
  | .bool _ => "bool"

/-- `eval::Rec`: the runtime record, a map from field name to value.  The
`HashMap<String, Val>` is modelled as an association list with unique keys
(`setattr` replaces in place). -/
structure Rec where
  fields : List (String × Val)
deriving DecidableEq, Repr

/-- `Rec::getattr`. -/
def Rec.getattr (r : Rec) (f : String) : Option Val :=
  (r.fields.find? (fun p => p.1 == f)).map (·.2)

/-- `HashMap::insert`: replace the binding if the key is present, else add it. -/
def insertAssoc : List (String × Val) → String → Val → List (String × Val)
  | [], f, v => [(f, v)]
  | (g, w) :: t, f, v => if g = f then (g, v) :: t else (g, w) :: insertAssoc t f v

/-- `Rec::setattr`. -/
def Rec.setattr (r : Rec) (f : String) (v : Val) : Rec :=
  ⟨insertAssoc r.fields f v⟩

/-- `Rec::is_empty`. -/
def Rec.isEmptyRec (r : Rec) : Bool :=
  r.fields.isEmpty

/-- `HashMap::contains_key`. -/
def Rec.containsKey (r : Rec) (f : String) : Bool :=
  r.fields.any (fun p => p.1 == f)

/-- The heap of runtime records plus the observational write log (one entry
per `Rec::setattr` call made through the store). -/
structure Store where
  recs : List Rec
  writes : List (Nat × String × Val)
deriving DecidableEq, Repr

/-- Dereference an address.  Addresses handed out by `alloc` are always in
range; the default is never reached. -/
def storeGet (s : Store) (a : Nat) : Rec :=
  s.recs.getD a ⟨[]⟩

/-- `Rc::new(RefCell::new(Rec::new()))`: allocate a fresh empty record,
returning its address. -/
def alloc (s : Store) : Nat × Store :=
  (s.recs.length, ⟨s.recs ++ [⟨[]⟩], s.writes⟩)

/-- `(*rc).borrow_mut().setattr(f, v)` on the record at address `a`,
also recording the write in the log. -/
def storeSet (s : Store) (a : Nat) (f : String) (v : Val) : Store :=
  ⟨s.recs.set a ((storeGet s a).setattr f v), s.writes ++ [(a, f, v)]⟩

/-- `eval::EvalError`. -/
structure EvalError where
  message : String
deriving DecidableEq, Repr

/-! ## Evaluation context (eval.rs) -/

/-- `eval::Ctx`: pairs the address of the record under construction with the
record-literal syntax that defines it, plus the optional parent context. -/
inductive Ctx where
  | mk (recAddr : Nat) (recExpr : Fields) (parent : Option Ctx)

def Ctx.recAddr : Ctx → Nat
  | .mk r _ _ => r

def Ctx.recExpr : Ctx → Fields
  | .mk _ re _ => re

def Ctx.parent : Ctx → Option Ctx
  | .mk _ _ p => p

/-- The loop body of `Ctx::getval`.  Note the source reads `self.rec` (here:
`selfRec`, the starting context's record) on every iteration while advancing
`c` through the parent chain; the parents' own records are never consulted. -/
def getvalLoop (s : Store) (selfRec : Nat) : Ctx → String → Option Val
  | .mk _ _ parent, var =>
    match (storeGet s selfRec).getattr var with
    | some v => some v
    | none =>
      match parent with
      | some p => getvalLoop s selfRec p var
      | none => none

/-- `Ctx::getval`. -/
def Ctx.getval (s : Store) (c : Ctx) (var : String) : Option Val :=
  getvalLoop s c.recAddr c var

/-- `Ctx::getfield`: look `field` up in the defining record literal. -/
def Ctx.getfield (c : Ctx) (field : String) : Option (String × Expr) :=
  c.recExpr.find field

/-- `Ctx::for_var`: find the closest enclosing context whose defining record
literal has a field named `field`. -/
def Ctx.for_var : Ctx → String → Option (Ctx × (String × Expr))
  | .mk r re parent, field =>
    match (Ctx.mk r re parent).getfield field with
    | some f => some (Ctx.mk r re parent, f)
    | none =>
      match parent with
      | some p => Ctx.for_var p field
      | none => none

/-! ## Machine arithmetic (eval.rs, `numeric_binexpr!` / `comp_expr!`) -/

def i64Min : Int := -(2 ^ 63)

def i64Max : Int := 2 ^ 63 - 1

def inI64 (i : Int) : Bool :=
  decide (i64Min ≤ i) && decide (i ≤ i64Max)

/-- Rust `i64` arithmetic (debug build) for the four operators that
`numeric_binexpr!` is instantiated at; `Except.error` carries the Rust panic
message.  `/` panics on a zero divisor in every build profile; `Int.tdiv` is
Rust's truncating division.  The evaluator never passes another operator. -/
def intArith : BinOp → Int → Int → Except String Int
  | .times, a, b =>
      if inI64 (a * b) then .ok (a * b) else .error "attempt to multiply with overflow"
  | .div, a, b =>
      if b = 0 then .error "attempt to divide by zero"
      else if inI64 (Int.tdiv a b) then .ok (Int.tdiv a b)
      else .error "attempt to divide with overflow"
  | .plus, a, b =>
      if inI64 (a + b) then .ok (a + b) else .error "attempt to add with overflow"
  | .minus, a, b =>
      if inI64 (a - b) then .ok (a - b) else .error "attempt to subtract with overflow"
  | _, _, _ => .error "unreachable: not an arithmetic operator"

/-- `f64` arithmetic modelled on exact rationals (exact wherever this
development uses it; `f64` values cannot be written in source text at all).
Only `*`, `/`, `+`, `-` are ever passed in. -/
def ratArith : BinOp → Rat → Rat → Rat
  | .times, a, b => a * b
  | .div, a, b => a / b
  | .plus, a, b => a + b
  | .minus, a, b => a - b
  | _, _, _ => 0

/-- `stringify!($op)` at the four `numeric_binexpr!` instantiations. -/
def arithSym : BinOp → String
  | .times => "*"
  | .div => "/"
  | .plus => "+"
  | .minus => "-"
  | _ => ""

/-- `stringify!($op)` at the six `comp_expr!` instantiations. -/
def compSym : BinOp → String
  | .lessThan => "<"
  | .greaterThan => ">"
  | .lessEq => "<="
  | .greaterEq => ">="
  | .eq => "=="
  | .notEq => "!="
  | _ => ""

/-- The host comparison `a $op b` at each `comp_expr!` arm, over a linearly
ordered carrier (`i64`, `f64`, `String` — Rust compares UTF-8 bytes, which
orders exactly like code points — and `bool`, with `false < true`). -/
def compOp {α : Type} [LinearOrder α] (op : BinOp) (a b : α) : Bool :=
  match op with
  | .lessThan => decide (a < b)
  | .greaterThan => decide (a > b)
  | .lessEq => decide (a ≤ b)
  | .greaterEq => decide (a ≥ b)
  | .eq => decide (a = b)
  | .notEq => decide (a ≠ b)
  | _ => false

/-- Outcome of a pure value-level operation: a value, an `EvalError`, or a
Rust panic. -/
inductive VRes where
  | ok (v : Val)
  | err (e : EvalError)
  | panicked (msg : String)
deriving DecidableEq, Repr

/-- The body of `numeric_binexpr!($lv, $op, $rv)`: `Int⊗Int→Int` (machine
arithmetic, may panic), any mix with `Double` promotes the `Int` side via
`as f64` and yields `Double`, anything else is the type error. -/
def numericBinexpr (op : BinOp) (lv rv : Val) : VRes :=
  match lv, rv with
  | .int a, .int b =>
      match intArith op a b with
      | .ok r => .ok (.int r)
      | .error m => .panicked m
  | .int a, .double b => .ok (.double (ratArith op (a : Rat) b))
  | .double a, .int b => .ok (.double (ratArith op a (b : Rat)))
  | .double a, .double b => .ok (.double (ratArith op a b))
  | _, _ =>
      .err ⟨"Invalid types for arithmetic operation \x27" ++ arithSym op ++ "\x27: "
            ++ lv.typ ++ " and " ++ rv.typ⟩

/-- The body of `comp_expr!($lv, $op, $rv)`: numeric pairs cross-promoted,
`Str`/`Str` and `Bool`/`Bool` natively, anything else the type error (whose
message says "arithmetic operation", as in the source). -/
def compExpr (op : BinOp) (lv rv : Val) : VRes :=
  match lv, rv with
  | .int a, .int b => .ok (.bool (compOp op a b))
  | .int a, .double b => .ok (.bool (compOp op (a : Rat) b))
  | .double a, .int b => .ok (.bool (compOp op a (b : Rat)))
  | .double a, .double b => .ok (.bool (compOp op a b))
  | .str a, .str b => .ok (.bool (compOp op a b))
  | .bool a, .bool b => .ok (.bool (compOp op a b))
  | _, _ =>
      .err ⟨"Invalid types for arithmetic operation \x27" ++ compSym op ++ "\x27: "
            ++ lv.typ ++ " and " ++ rv.typ⟩

/-- `Val::to_bool`; needs the store to test record emptiness.  `Timestamp`
and `Duration` hit `todo!()`: the `Except.error` carries the panic message. -/
def toBool (s : Store) : Val → Except String Bool
  | .nil => .ok false
  | .recV a => .ok (!(storeGet s a).isEmptyRec)
  | .bool b => .ok b
  | .int i => .ok (decide (i ≠ 0))
  | .double d => .ok (decide (d ≠ 0))
  | .str t => .ok (!t.isEmpty)
  | .timestamp => .error "not yet implemented"
  | .duration => .error "not yet implemented"

/-! ## The evaluator (eval.rs, `eval` / `eval_rec` / `eval_field`) -/

/-- Outcome of an evaluation step: `ok` carries the value and the store after
the step; `err` is `Err(EvalError)`; `panicked` is a Rust panic; `spin` means
the fuel ran out (models non-termination on cyclic field graphs). -/
inductive Res (α : Type) where
  | ok (v : α) (s : Store)
  | err (e : EvalError)
  | panicked (msg : String)
  | spin
deriving DecidableEq, Repr

/-- Attach the current store to a pure operation's outcome. -/
def VRes.withStore : VRes → Store → Res Val
  | .ok v, s => .ok v s
  | .err e, _ => .err e
  | .panicked m, _ => .panicked m

mutual
/-- `eval(e, ctx)`. -/
def evalE : Nat → Expr → Ctx → Store → Res Val
  | 0, _, _, _ => .spin
  | fuel + 1, e, ctx, s =>
    match e with
    | .literal l =>
      match l with
      | .nil => .ok .nil s
      | .int i => .ok (.int i) s
      | .double d => .ok (.double d) s
      | .str t => .ok (.str t) s
    | .var name =>
      match ctx.getval s name with
      | some r => .ok r s
      | none =>
        match ctx.for_var name with
        | some (ctx2, fld) => evalField fuel fld ctx2 s
        | none => .err ⟨"Unbound variable \x27" ++ name ++ "\x27"⟩
    | .fieldAcc re f =>
      match evalE fuel re ctx s with
      | .ok v s2 =>
        match v with
        | .recV a =>
          match (storeGet s2 a).getattr f with
          | some w => .ok w s2
          | none => .err ⟨"Field does not exist \x27" ++ f ++ "\x27"⟩
        | v2 => .err ⟨"Invalid field access on value type \x27" ++ v2.typ ++ "\x27"⟩
      | r => r
    | .unExpr op e1 =>
      match evalE fuel e1 ctx s with
      | .ok val s2 =>
        match op with
        | .unPlus => .ok val s2
        | .unMinus =>
          match val with
          | .int i =>
            -- `-i` on `i64::MIN` overflows (debug-build panic)
            if i = i64Min then .panicked "attempt to negate with overflow"
            else .ok (.int (-i)) s2
          | .double d => .ok (.double (-d)) s2
          | _ => .err ⟨"Cannot apply unary minus to type \x27" ++ val.typ ++ "\x27"⟩
        | .not =>
          match toBool s2 val with
          | .ok b => .ok (.bool (!b)) s2
          | .error m => .panicked m
      | r => r
    | .binExpr le op re =>
      match evalE fuel le ctx s with
      | .ok lv s1 =>
        -- both operands are always evaluated (no short-circuit for && / ||)
        match evalE fuel re ctx s1 with
        | .ok rv s2 =>
          match op with
          | .times | .div | .plus | .minus => (numericBinexpr op lv rv).withStore s2
          | .shiftLeft => .panicked "not yet implemented"
          | .shiftRight => .panicked "not yet implemented"
          | .lessThan | .greaterThan | .lessEq | .greaterEq | .eq | .notEq =>
            (compExpr op lv rv).withStore s2
          | .logicalAnd =>
            -- `Ok(Val::Bool(lv.to_bool() && rv.to_bool()))` (host `&&` is lazy
            -- in the truthiness *tests* only; both operands were evaluated)
            match toBool s2 lv with
            | .error m => .panicked m
            | .ok false => .ok (.bool false) s2
            | .ok true =>
              match toBool s2 rv with
              | .error m => .panicked m
              | .ok b => .ok (.bool b) s2
          | .logicalOr =>
            match toBool s2 lv with
            | .error m => .panicked m
            | .ok true => .ok (.bool true) s2
            | .ok false =>
              match toBool s2 rv with
              | .error m => .panicked m
              | .ok b => .ok (.bool b) s2
        | r => r
      | r => r
    | .recE re =>
      match evalRec fuel re ctx s with
      | .ok addr s2 => .ok (.recV addr) s2
      | .err er => .err er
      | .panicked m => .panicked m
      | .spin => .spin
    | .call _ _ => .panicked "not yet implemented"
    | .funE _ _ => .panicked "not yet implemented"

/-- `eval_rec(re, ctx)`: allocate a fresh record, build the child context
bound to it, fill the fields, return the record's address. -/
def evalRec : Nat → Fields → Ctx → Store → Res Nat
  | 0, _, _, _ => .spin
  | fuel + 1, re, ctx, s =>
    let (addr, s1) := alloc s
    match evalRecFields fuel re addr (Ctx.mk addr re (some ctx)) s1 with
    | .ok _ s2 => .ok addr s2
    | .err er => .err er
    | .panicked m => .panicked m
    | .spin => .spin

/-- The field loop of `eval_rec`: fields already present in the record (filled
in by a cross-reference triggered earlier) are skipped. -/
def evalRecFields : Nat → Fields → Nat → Ctx → Store → Res Unit
  | 0, _, _, _, _ => .spin
  | _ + 1, .nil, _, _, s => .ok () s
  | fuel + 1, .cons n v rest, addr, recCtx, s =>
    if (storeGet s addr).containsKey n then
      evalRecFields fuel rest addr recCtx s
    else
      match evalE fuel v recCtx s with
      | .ok val s2 => evalRecFields fuel rest addr recCtx (storeSet s2 addr n val)
      | .err er => .err er
      | .panicked m => .panicked m
      | .spin => .spin

/-- `eval_field(field, ctx)`: evaluate the field's expression in `ctx` and
store the result in `ctx`'s active record. -/
def evalField : Nat → String × Expr → Ctx → Store → Res Val
  | 0, _, _, _ => .spin
  | fuel + 1, fld, ctx, s =>
    match evalE fuel fld.2 ctx s with
    | .ok val s2 => .ok val (storeSet s2 ctx.recAddr fld.1 val)
    | .err er => .err er
    | .panicked m => .panicked m
    | .spin => .spin
end

/-- `Ctx::global()`: context 0, an empty record, a synthetic empty record
literal, no parent. -/
def globalCtx : Ctx := .mk 0 .nil none

/-- The store at the start of an evaluation: only the global record. -/
def initStore : Store := ⟨[⟨[]⟩], []⟩

/-- Evaluate an expression in the global context, as `eval(&e, Ctx::global())`
in the tests and `main` do. -/
def evalGlobal (fuel : Nat) (e : Expr) : Res Val :=
  evalE fuel e globalCtx initStore

/-! ## The parser (parser.rs, strings.rs)

Input is the list of characters of the source text.  `nom`'s result type is
modelled by `PRes`: a recoverable `Error` lets the enclosing `alt` try its
next branch, a `Failure` (produced by `cut`) aborts the whole parse. -/

/-- Parser outcome. -/
inductive PRes (α : Type) where
  | ok (v : α) (rest : List Char)
  | fail
  | failHard
  | spinP
deriving DecidableEq, Repr

/-- Characters that are awkward as literals are named. -/
def quoteC : Char := Char.ofNat 34

def backslashC : Char := Char.ofNat 92

def aposC : Char := Char.ofNat 39

def lbraceC : Char := Char.ofNat 123

def rbraceC : Char := Char.ofNat 125

/-- The whitespace set of `multispace0`/`multispace1`. -/
def isSpaceC (c : Char) : Bool :=
  c == ' ' || c == '\t' || c == '\r' || c == '\n'

/-- `multispace0`: consume any run of whitespace. -/
def multispace0 (input : List Char) : List Char :=
  input.dropWhile isSpaceC

/-- `eol`: `many0(one_of("\t "))` then `"\r\n"` or `"\n"`. -/
def eolP (input : List Char) : Option (List Char) :=
  match input.dropWhile (fun c => c == '\t' || c == ' ') with
  | '\r' :: '\n' :: r => some r
  | '\n' :: r => some r
  | _ => none

def isDigitOrScore (c : Char) : Bool :=
  c.isDigit || c == '_'

/-- `many1(terminated(one_of("0123456789"), many0(char('_'))))` consumes
exactly the longest prefix of digits and underscores provided it starts with
a digit (each underscore run attaches to the digit unit before it). -/
def digitSpan : List Char → Option (List Char × List Char)
  | [] => none
  | c :: t =>
    if c.isDigit then some (c :: t.takeWhile isDigitOrScore, t.dropWhile isDigitOrScore)
    else none

def digitVal (c : Char) : Nat := c.toNat - 48

/-- `int_literal`: `recognize(pair(opt(one_of("+-")), digit groups))`, strip
the underscores, then `i64::from_str_radix(…, 10)`; an out-of-`i64`-range
number is a recoverable error (`map_res`). -/
def int_literal (input : List Char) : Option (Literal × List Char) :=
  let signed : Option Char × List Char :=
    match input with
    | c :: t => if c == '+' || c == '-' then (some c, t) else (none, input)
    | [] => (none, [])
  match digitSpan signed.2 with
  | none => none
  | some (ds, rest) =>
    let n : Nat := (ds.filter (fun c => c != '_')).foldl (fun acc c => 10 * acc + digitVal c) 0
    let i : Int := if signed.1 == some '-' then -(n : Int) else (n : Int)
    if inI64 i then some (.int i, rest) else none

def isIdentStart (c : Char) : Bool :=
  c.isAlpha || c == '_'

def isIdentCont (c : Char) : Bool :=
  c.isAlphanum || c == '_'

/-- `ident`: `take_while1(alphabetic | _)` then `take_while(alphanumeric | _)`
(`char::is_alphabetic` restricted to ASCII; every identifier appearing in
this development is ASCII). -/
def ident (input : List Char) : Option (String × List Char) :=
  match input with
  | c :: _ =>
    if isIdentStart c then
      let r1 := input.dropWhile isIdentStart
      some (String.mk (input.takeWhile isIdentStart ++ r1.takeWhile isIdentCont),
            r1.dropWhile isIdentCont)
    else none
  | [] => none

/-- `unop`: `-`, `+`, `!`, in the source's `alt` order. -/
def unop : List Char → Option (UnOp × List Char)
  | '-' :: t => some (.unMinus, t)
  | '+' :: t => some (.unPlus, t)
  | '!' :: t => some (.not, t)
  | _ => none

/-- `parser::BinopPrecedence`. -/
inductive BinopPrecedence where
  | multiplicative
  | additive
  | shift
  | relational
  | equality
  | logicalAnd
  | logicalOr
deriving DecidableEq, Repr

/-- `BinopPrecedence::is_terminal`. -/
def BinopPrecedence.isTerminal (l : BinopPrecedence) : Bool :=
  l == .multiplicative

/-- `BinopPrecedence::next`.  The `Multiplicative` case panics in the source
and is unreachable: every call is guarded by `is_terminal`. -/
def BinopPrecedence.next : BinopPrecedence → BinopPrecedence
  | .logicalOr => .logicalAnd
  | .logicalAnd => .equality
  | .equality => .relational
  | .relational => .shift
  | .shift => .additive
  | .additive => .multiplicative
  | .multiplicative => .multiplicative

/-- `binop(lvl)`: the operator tokens of one precedence class, tried in the
source's `alt` order (`<=`/`>=` before `<`/`>`).  NB at `Shift` the source
maps the token `>>` to `BinOp::ShiftLeft` and `<<` to `BinOp::ShiftRight`. -/
def binop : BinopPrecedence → List Char → Option (BinOp × List Char)
  | .multiplicative, '*' :: t => some (.times, t)
  | .multiplicative, '/' :: t => some (.div, t)
  | .additive, '+' :: t => some (.plus, t)
  | .additive, '-' :: t => some (.minus, t)
  | .shift, '>' :: '>' :: t => some (.shiftLeft, t)
  | .shift, '<' :: '<' :: t => some (.shiftRight, t)
  | .relational, '<' :: '=' :: t => some (.lessEq, t)
  | .relational, '>' :: '=' :: t => some (.greaterEq, t)
  | .relational, '<' :: t => some (.lessThan, t)
  | .relational, '>' :: t => some (.greaterThan, t)
  | .equality, '=' :: '=' :: t => some (.eq, t)
  | .equality, '!' :: '=' :: t => some (.notEq, t)
  | .logicalAnd, '&' :: '&' :: t => some (.logicalAnd, t)
  | .logicalOr, '|' :: '|' :: t => some (.logicalOr, t)
  | _, _ => none

/-- `ws(unop)`. -/
def unopWs (input : List Char) : Option (UnOp × List Char) :=
  match unop (multispace0 input) with
  | some (op, r) => some (op, multispace0 r)
  | none => none

def isHexC (c : Char) : Bool :=
  c.isDigit || (97 ≤ c.toNat && c.toNat ≤ 102) || (65 ≤ c.toNat && c.toNat ≤ 70)

def hexVal (c : Char) : Nat :=
  if c.isDigit then c.toNat - 48
  else if 97 ≤ c.toNat then c.toNat - 87
  else c.toNat - 55

/-- `parse_unicode` with the leading `u` already consumed: `{`, one to six
hex digits (greedy, at most six), `}`; `char::from_u32` rejects surrogates
and out-of-range values (`map_opt`, recoverable). -/
def parseUnicodeBody (input : List Char) : Option (Char × List Char) :=
  match input with
  | c :: t =>
    if c == lbraceC then
      match (t.takeWhile isHexC).take 6 with
      | [] => none
      | hs =>
        match t.drop hs.length with
        | c2 :: r2 =>
          if c2 == rbraceC then
            let n := hs.foldl (fun acc h => 16 * acc + hexVal h) 0
            if n.isValidChar then some (Char.ofNat n, r2) else none
          else none
        | [] => none
    else none
  | [] => none

/-- The `alt` inside `parse_escaped_char`, leading `\` already consumed:
`u{…}`, `n`, `r`, `t`, `b`, `f`, `\`, `'`, `/`, `"` (only the unicode branch
accepts a `u`, so dispatching on the head character is faithful). -/
def escChar : List Char → Option (Char × List Char)
  | 'u' :: t => parseUnicodeBody t
  | 'n' :: t => some ('\n', t)
  | 'r' :: t => some ('\r', t)
  | 't' :: t => some ('\t', t)
  | 'b' :: t => some (Char.ofNat 8, t)
  | 'f' :: t => some (Char.ofNat 12, t)
  | c :: t =>
    if c == backslashC || c == aposC || c == '/' || c == quoteC then some (c, t) else none
  | [] => none

/-- `fold_many0(parse_fragment, …)`: literal runs, escaped characters and
escaped-whitespace runs, in the source's `alt` order, accumulated until no
fragment parses. -/
def stringFold : Nat → List Char → PRes (List Char)
  | 0, _ => .spinP
  | fuel + 1, input =>
    let lit := input.takeWhile (fun c => c != quoteC && c != backslashC)
    if lit.isEmpty then
      match input with
      | c :: t =>
        if c == backslashC then
          match escChar t with
          | some (ch, r) =>
            match stringFold fuel r with
            | .ok s rest => .ok (ch :: s) rest
            | r2 => r2
          | none =>
            -- parse_escaped_whitespace: `\` then multispace1, dropped whole
            if (t.takeWhile isSpaceC).isEmpty then .ok [] input
            else
              match stringFold fuel (t.dropWhile isSpaceC) with
              | .ok s rest => .ok s rest
              | r2 => r2
        else .ok [] input
      | [] => .ok [] input
    else
      match stringFold fuel (input.dropWhile (fun c => c != quoteC && c != backslashC)) with
      | .ok s rest => .ok (lit ++ s) rest
      | r2 => r2

/-- `parse_string` (strings.rs): `"`, the fragment fold, `"`.  (The source
uses `streaming` sub-parsers whose end-of-input `Incomplete` is modelled as a
plain failure; no claim exercises an unterminated literal.) -/
def parse_string (fuel : Nat) (input : List Char) : PRes String :=
  match input with
  | c :: t =>
    if c == quoteC then
      match stringFold fuel t with
      | .ok s rest =>
        match rest with
        | c2 :: r2 => if c2 == quoteC then .ok (String.mk s) r2 else .fail
        | [] => .fail
      | .fail => .fail
      | .failHard => .failHard
      | .spinP => .spinP
    else .fail
  | [] => .fail

/-- Convert an accumulated field list. -/
def Fields.ofList : List (String × Expr) → Fields
  | [] => .nil
  | (n, e) :: t => .cons n e (Fields.ofList t)

mutual
/-- `atom`: the `alt` over record literal, parenthesised expression, string
literal, integer literal, unary operator applied to an atom, and bare
identifier — then zero or more `.ident` suffixes folded into `FieldAcc`. -/
def atom : Nat → List Char → PRes Expr
  | 0, _ => .spinP
  | fuel + 1, input =>
    match recP fuel input with
    | .ok e r => atomSuffix fuel e r
    | .failHard => .failHard
    | .spinP => .spinP
    | .fail =>
      match parensP fuel input with
      | .ok e r => atomSuffix fuel e r
      | .failHard => .failHard
      | .spinP => .spinP
      | .fail =>
        match parse_string fuel input with
        | .ok s r => atomSuffix fuel (.literal (.str s)) r
        | .failHard => .failHard
        | .spinP => .spinP
        | .fail =>
          match int_literal input with
          | some (l, r) => atomSuffix fuel (.literal l) r
          | none =>
            match unopWs input with
            | some (op, r) =>
              match atom fuel r with
              | .ok e r2 => atomSuffix fuel (.unExpr op e) r2
              | .failHard => .failHard
              | .spinP => .spinP
              | .fail =>
                match ident input with
                | some (nm, r2) => atomSuffix fuel (.var nm) r2
                | none => .fail
            | none =>
              match ident input with
              | some (nm, r) => atomSuffix fuel (.var nm) r
              | none => .fail

/-- `many0(preceded(ws(char('.')), var))`, folded left-to-right. -/
def atomSuffix : Nat → Expr → List Char → PRes Expr
  | 0, _, _ => .spinP
  | fuel + 1, e, input =>
    match multispace0 input with
    | '.' :: t =>
      match ident (multispace0 t) with
      | some (nm, r) => atomSuffix fuel (.fieldAcc e nm) r
      | none => .ok e input
    | _ => .ok e input

/-- `delimited(char('('), cut(ws(expr)), char(')'))`: after `(`, failure of
the inner expression is unrecoverable (`cut`). -/
def parensP : Nat → List Char → PRes Expr
  | 0, _ => .spinP
  | fuel + 1, input =>
    match input with
    | '(' :: t =>
      match gen_expr fuel .logicalOr (multispace0 t) with
      | .ok e r =>
        match multispace0 r with
        | ')' :: r2 => .ok e r2
        | _ => .fail
      | .fail => .failHard
      | .failHard => .failHard
      | .spinP => .spinP
    | _ => .fail

/-- The record-literal parser `rec`: `{` multispace0, fields separated by
line breaks, multispace0 `}`. -/
def recP : Nat → List Char → PRes Expr
  | 0, _ => .spinP
  | fuel + 1, input =>
    match input with
    | c :: t =>
      if c == lbraceC then
        match sepFields fuel (multispace0 t) with
        | .ok fs r =>
          match multispace0 r with
          | c2 :: r2 => if c2 == rbraceC then .ok (.recE fs) r2 else .fail
          | [] => .fail
        | .fail => .fail
        | .failHard => .failHard
        | .spinP => .spinP
      else .fail
    | [] => .fail

/-- `separated_list0(eol, preceded(multispace0, rec_field))`. -/
def sepFields : Nat → List Char → PRes Fields
  | 0, _ => .spinP
  | fuel + 1, input =>
    match fieldItem fuel input with
    | .ok f r =>
      match sepFieldsMore fuel r with
      | .ok fs rest => .ok (.cons f.1 f.2 (Fields.ofList fs)) rest
      | .fail => .fail
      | .failHard => .failHard
      | .spinP => .spinP
    | .fail => .ok .nil input
    | .failHard => .failHard
    | .spinP => .spinP

/-- The `(eol, item)*` tail of `separated_list0`; a separator after which the
item fails is backtracked. -/
def sepFieldsMore : Nat → List Char → PRes (List (String × Expr))
  | 0, _ => .spinP
  | fuel + 1, input =>
    match eolP input with
    | some r1 =>
      match fieldItem fuel r1 with
      | .ok f r2 =>
        match sepFieldsMore fuel r2 with
        | .ok fs rest => .ok (f :: fs) rest
        | .fail => .fail
        | .failHard => .failHard
        | .spinP => .spinP
      | .fail => .ok [] input
      | .failHard => .failHard
      | .spinP => .spinP
    | none => .ok [] input

/-- `preceded(multispace0, rec_field)` with
`rec_field = pair(terminated(ident, ws(char(':'))), expr)`. -/
def fieldItem : Nat → List Char → PRes (String × Expr)
  | 0, _ => .spinP
  | fuel + 1, input =>
    match ident (multispace0 input) with
    | some (nm, r1) =>
      match multispace0 r1 with
      | ':' :: r2 =>
        match gen_expr fuel .logicalOr (multispace0 r2) with
        | .ok e r3 => .ok (nm, e) r3
        | .fail => .fail
        | .failHard => .failHard
        | .spinP => .spinP
      | _ => .fail
    | none => .fail

/-- `gen_expr(lvl)`: parse one subterm at the next tighter level (an atom at
the terminal level); if one of this level's operators follows, parse the
right operand *at the same level* and wrap — hence right associativity. -/
def gen_expr : Nat → BinopPrecedence → List Char → PRes Expr
  | 0, _, _ => .spinP
  | fuel + 1, lvl, input =>
    match (if lvl.isTerminal then atom fuel input else gen_expr fuel lvl.next input) with
    | .ok a r1 =>
      match binop lvl (multispace0 r1) with
      | some (op, r2) =>
        match gen_expr fuel lvl (multispace0 r2) with
        | .ok b r3 => .ok (.binExpr a op b) r3
        | .fail => .fail
        | .failHard => .failHard
        | .spinP => .spinP
      | none => .ok a r1
    | r => r
end

/-- `expr = gen_expr(LogicalOr)`. -/
def exprTop (fuel : Nat) (input : List Char) : PRes Expr :=
  gen_expr fuel .logicalOr input

/-- `expr_opt`: parse with `expr` and require the input fully consumed. -/
def expr_opt (fuel : Nat) (s : String) : Option Expr :=
  match exprTop fuel s.data with
  | .ok e [] => some e
  | _ => none

/-! ## Example programs and auxiliary definitions for the theorems -/

/-- Phase-1 variable lookup as the spec states it (§4.3 step 1): walk the
chain `C, parent(C), …` and check *each node's own* record, returning the
first hit.  Contrast with `Ctx.getval` above, which transcribes the source
and consults only the starting node's record on every iteration. -/
def getvalSpec (s : Store) : Ctx → String → Option Val
  | .mk r _ parent, var =>
    match (storeGet s r).getattr var with
    | some v => some v
    | none =>
      match parent with
      | some p => getvalSpec s p var
      | none => none

/-- Is the value one of the two numeric types `numeric_binexpr!` accepts? -/
def isNumV : Val → Bool
  | .int _ => true
  | .double _ => true
  | _ => false

/-- The write log of a successful evaluation. -/
def writesOf : Res Val → List (Nat × String × Val)
  | .ok _ s => s.writes
  | _ => []

/-- The program `{a: {}, b: {c: a}}`: field `a` is evaluated and stored
during the root record's field pass, then referenced from inside the nested
record `b`. -/
def progShadow : Expr :=
  .recE (.cons "a" (.recE .nil) (.cons "b" (.recE (.cons "c" (.var "a") .nil)) .nil))

/-- A store in which record 0 (the parent's) already holds `a = 1` and
record 1 (the child's) is still empty. -/
def c1Store : Store := ⟨[⟨[("a", Val.int 1)]⟩, ⟨[]⟩], []⟩

/-- A context owning record 0, whose defining literal is `{a: 1}`. -/
def c1Parent : Ctx := .mk 0 (.cons "a" (.literal (.int 1)) .nil) none

/-- A child context of `c1Parent` owning the empty record 1. -/
def c1Child : Ctx := .mk 1 .nil (some c1Parent)

/-- The right-nested tree `3 - (8 - 1)`. -/
def tree381 : Expr :=
  .binExpr (.literal (.int 3)) .minus
    (.binExpr (.literal (.int 8)) .minus (.literal (.int 1)))

/-- The left-nested alternative `(3 - 8) - 1`. -/
def tree381L : Expr :=
  .binExpr (.binExpr (.literal (.int 3)) .minus (.literal (.int 8))) .minus
    (.literal (.int 1))

/-- The character of a decimal digit. -/
def digitC (d : Fin 10) : Char := Char.ofNat (48 + d.val)

/-- The source text `d1 tok d2 tok d3` for single-digit atoms. -/
def chain3 (d1 d2 d3 : Fin 10) (tok : List Char) : List Char :=
  [digitC d1] ++ tok ++ [digitC d2] ++ tok ++ [digitC d3]

/-- Every binary-operator token together with the `BinOp` the parser produces
for it. -/
def opTable : List (List Char × BinOp) :=
  [(['*'], .times), (['/'], .div), (['+'], .plus), (['-'], .minus),
   (['>', '>'], .shiftLeft), (['<', '<'], .shiftRight),
   (['<'], .lessThan), (['>'], .greaterThan),
   (['<', '='], .lessEq), (['>', '='], .greaterEq),
   (['=', '='], .eq), (['!', '='], .notEq),
   (['&', '&'], .logicalAnd), (['|', '|'], .logicalOr)]

/-! ## The claims -/

/-- C1 (code bug).  The claim: phase-1 variable lookup walks the chain
`C, parent(C), …` and returns the value from the first node whose record
contains the variable.  The code's loop reads `self.rec` on every iteration
instead of `c.rec`: a value already stored in the parent's record is not
found (`getval` returns `none` although the parent's record holds `a = 1`
— the spec-faithful walk `getvalSpec` finds it). -/
theorem c1_phase1_lookup_misses_parent_store :
    Rec.getattr (storeGet c1Store 0) "a" = some (Val.int 1) ∧
    Ctx.parent c1Child = some c1Parent ∧
    getvalSpec c1Store c1Child "a" = some (Val.int 1) ∧
    Ctx.getval c1Store c1Child "a" = none :=
  ⟨by decide, rfl, by decide, by decide⟩

/-- C2 (code bug).  The claim: each field's defining expression is evaluated
at most once.  In `{a: {}, b: {c: a}}` the reference to `a` from inside `b`
misses the memoised value (see C1), so `a`'s defining record literal `{}` is
evaluated twice: the write log shows two `setattr` calls for `("a", record 1)`
storing two *distinct* allocations (addresses 2 and 4). -/
theorem c2_field_expression_evaluated_twice :
    evalGlobal 30 progShadow =
      .ok (.recV 1)
        ⟨[⟨[]⟩, ⟨[("a", .recV 4), ("b", .recV 3)]⟩, ⟨[]⟩, ⟨[("c", .recV 4)]⟩, ⟨[]⟩],
         [(1, "a", .recV 2), (1, "a", .recV 4), (3, "c", .recV 4), (1, "b", .recV 3)]⟩ := by
  decide

/-- C3 (confirmed).  For every binary operator — `&&` and `||` included —
both operands are evaluated eagerly: whenever the left operand evaluates
successfully and the right operand's evaluation fails, that error is the
result of the whole expression, regardless of the left value's truthiness. -/
theorem c3_no_short_circuit (fuel : Nat) (le re : Expr) (op : BinOp) (ctx : Ctx)
    (s s1 : Store) (lv : Val) (er : EvalError)
    (hle : evalE fuel le ctx s = .ok lv s1)
    (hre : evalE fuel re ctx s1 = .err er) :
    evalE (fuel + 1) (.binExpr le op re) ctx s = .err er := by
  simp only [evalE, hle, hre]

/-- Witness for C3: in `1 || x` with `x` unbound, the left operand is truthy
and would alone determine the result, yet the unbound-variable error from the
right operand surfaces. -/
theorem c3_no_short_circuit_witness :
    evalE 2 (.binExpr (.literal (.int 1)) .logicalOr (.var "x")) globalCtx initStore =
      .err ⟨"Unbound variable \x27x\x27"⟩ :=
  c3_no_short_circuit 1 (.literal (.int 1)) (.var "x") .logicalOr globalCtx initStore
    initStore (.int 1) ⟨"Unbound variable \x27x\x27"⟩ (by decide) (by decide)

set_option maxRecDepth 100000 in
set_option maxHeartbeats 4000000 in
/-- C4 (confirmed).  Chains of binary operators within one precedence class
group right-to-left: `a-b-c` parses as `a-(b-c)` and `a/b/c` as `a/(b/c)` for
all single-digit atoms; one representative chain per operator token parses
right-nested; a length-4 chain nests fully to the right; and `"3-8-1"` parses
as `3-(8-1)` and evaluates to `-4` (the left-nested reading would give
`-6`). -/
theorem c4_right_associative :
    (∀ d1 d2 d3 : Fin 10,
      exprTop 50 (chain3 d1 d2 d3 ['-']) =
        .ok (.binExpr (.literal (.int d1.val)) .minus
          (.binExpr (.literal (.int d2.val)) .minus (.literal (.int d3.val)))) []) ∧
    (∀ d1 d2 d3 : Fin 10,
      exprTop 50 (chain3 d1 d2 d3 ['/']) =
        .ok (.binExpr (.literal (.int d1.val)) .div
          (.binExpr (.literal (.int d2.val)) .div (.literal (.int d3.val)))) []) ∧
    (∀ p ∈ opTable,
      exprTop 50 (chain3 1 2 3 p.1) =
        .ok (.binExpr (.literal (.int 1)) p.2
          (.binExpr (.literal (.int 2)) p.2 (.literal (.int 3)))) []) ∧
    expr_opt 50 "1-2-3-4" =
      some (.binExpr (.literal (.int 1)) .minus
        (.binExpr (.literal (.int 2)) .minus
          (.binExpr (.literal (.int 3)) .minus (.literal (.int 4))))) ∧
    expr_opt 50 "3-8-1" = some tree381 ∧
    evalGlobal 5 tree381 = .ok (.int (-4)) initStore ∧
    evalGlobal 5 tree381L = .ok (.int (-6)) initStore :=
  ⟨by decide, by decide, by decide, by decide, by decide, by decide, by decide⟩

/-- Witness for C4 at the `*` entry of the operator table:
`1*2*3` parses as `1*(2*3)`. -/
theorem c4_right_associative_witness :
    exprTop 50 (chain3 1 2 3 ['*']) =
      .ok (.binExpr (.literal (.int 1)) .times
        (.binExpr (.literal (.int 2)) .times (.literal (.int 3)))) [] :=
  c4_right_associative.2.2.1 (['*'], .times) (by decide)

/-- C5 (code bug).  The claim: a record entry, once stored, is never
overwritten with a different value object.  Evaluating `{a: {}, b: {c: a}}`
first stores the record at address 2 under `a` and later overwrites that
entry with the distinct record at address 4 (the re-evaluation of C2). -/
theorem c5_record_entry_overwritten :
    (writesOf (evalGlobal 30 progShadow)).filter (fun w => w.1 == 1 && w.2.1 == "a") =
      [(1, "a", .recV 2), (1, "a", .recV 4)] ∧
    Val.recV 2 ≠ Val.recV 4 := by
  decide

/-- C6 (confirmed).  Arithmetic typing and promotion: `Int⊗Int` yields `Int`
(or a machine-arithmetic panic), any mix with `Double` yields `Double`, every
non-numeric operand pair is the type error; `1 + 2.5` evaluates to
`Double(3.5)` and `"1" + 2` is a type error. -/
theorem c6_arith_typing :
    (∀ (op : BinOp) (a b : Int),
      (op = BinOp.times ∨ op = BinOp.div ∨ op = BinOp.plus ∨ op = BinOp.minus) →
      (∃ r, numericBinexpr op (Val.int a) (Val.int b) = .ok (.int r)) ∨
      (∃ m, numericBinexpr op (Val.int a) (Val.int b) = .panicked m)) ∧
    (∀ (op : BinOp) (a : Int) (d : Rat),
      (∃ r, numericBinexpr op (Val.int a) (Val.double d) = .ok (.double r)) ∧
      (∃ r, numericBinexpr op (Val.double d) (Val.int a) = .ok (.double r))) ∧
    (∀ (op : BinOp) (d1 d2 : Rat),
      ∃ r, numericBinexpr op (Val.double d1) (Val.double d2) = .ok (.double r)) ∧
    (∀ (op : BinOp) (lv rv : Val), (isNumV lv = false ∨ isNumV rv = false) →
      numericBinexpr op lv rv =
        .err ⟨"Invalid types for arithmetic operation \x27" ++ arithSym op ++ "\x27: "
              ++ lv.typ ++ " and " ++ rv.typ⟩) ∧
    evalGlobal 2 (.binExpr (.literal (.int 1)) .plus (.literal (.double 2.5))) =
      .ok (.double 3.5) initStore ∧
    evalGlobal 2 (.binExpr (.literal (.str "1")) .plus (.literal (.int 2))) =
      .err ⟨"Invalid types for arithmetic operation \x27+\x27: str and int"⟩ := by
  refine ⟨?_, ?_, ?_, ?_, ?_, ?_⟩
  · intro op a b _
    rcases him : intArith op a b with m | r
    · exact Or.inr ⟨m, by simp [numericBinexpr, him]⟩
    · exact Or.inl ⟨r, by simp [numericBinexpr, him]⟩
  · exact fun op a d => ⟨⟨_, rfl⟩, ⟨_, rfl⟩⟩
  · exact fun op d1 d2 => ⟨_, rfl⟩
  · intro op lv rv h
    cases lv <;> cases rv <;> simp_all [numericBinexpr, isNumV]
  · have hr : ratArith .plus ((1 : Int) : Rat) (2.5 : Rat) = (3.5 : Rat) := by
      simp only [ratArith]
      norm_num
    have he : evalGlobal 2 (.binExpr (.literal (.int 1)) .plus (.literal (.double 2.5))) =
        .ok (.double (ratArith .plus ((1 : Int) : Rat) (2.5 : Rat))) initStore := rfl
    rw [he, hr]
  · decide

/-- Witness for C6: `2 + 3` at the `Int⊗Int` clause and `"a" * 1` at the
type-error clause. -/
theorem c6_arith_typing_witness :
    ((∃ r, numericBinexpr .plus (Val.int 2) (Val.int 3) = .ok (.int r)) ∨
      (∃ m, numericBinexpr .plus (Val.int 2) (Val.int 3) = .panicked m)) ∧
    numericBinexpr .times (Val.str "a") (Val.int 1) =
      .err ⟨"Invalid types for arithmetic operation \x27*\x27: str and int"⟩ :=
  ⟨c6_arith_typing.1 .plus 2 3 (Or.inr (Or.inr (Or.inl rfl))),
   c6_arith_typing.2.2.2.1 .times (Val.str "a") (Val.int 1) (Or.inl rfl)⟩

/-- C7 (confirmed).  Field access is strict and non-lazy: after the base
evaluates, a non-record base is the invalid-target error naming the actual
type; a record base without the field is the field-not-found error even
though the lookup could have fallen back to lazy evaluation; a present field
is returned with the store unchanged (no lazy evaluation is triggered). -/
theorem c7_field_access_strict (fuel : Nat) (base : Expr) (f : String) (ctx : Ctx)
    (s s2 : Store) (v : Val)
    (h : evalE fuel base ctx s = .ok v s2) :
    ((∀ a, v ≠ Val.recV a) →
      evalE (fuel + 1) (.fieldAcc base f) ctx s =
        .err ⟨"Invalid field access on value type \x27" ++ v.typ ++ "\x27"⟩) ∧
    (∀ a, v = Val.recV a →
      ((storeGet s2 a).getattr f = none →
        evalE (fuel + 1) (.fieldAcc base f) ctx s =
          .err ⟨"Field does not exist \x27" ++ f ++ "\x27"⟩) ∧
      (∀ w, (storeGet s2 a).getattr f = some w →
        evalE (fuel + 1) (.fieldAcc base f) ctx s = .ok w s2)) := by
  constructor
  · intro hnrec
    cases v
    case recV a => exact absurd rfl (hnrec a)
    all_goals simp only [evalE, h]
  · intro a hva
    subst hva
    refine ⟨fun hnone => ?_, fun w hsome => ?_⟩
    · simp only [evalE, h, hnone]
    · simp only [evalE, h, hsome]

/-- Witness for C7: `1.x` is the invalid-target error; `{}.x` is the
field-not-found error; `{x: 7}.x` returns `7` with the store unchanged. -/
theorem c7_field_access_strict_witness :
    evalE 2 (.fieldAcc (.literal (.int 1)) "x") globalCtx initStore =
      .err ⟨"Invalid field access on value type \x27int\x27"⟩ ∧
    evalE 4 (.fieldAcc (.recE .nil) "x") globalCtx initStore =
      .err ⟨"Field does not exist \x27x\x27"⟩ ∧
    evalE 5 (.fieldAcc (.recE (.cons "x" (.literal (.int 7)) .nil)) "x") globalCtx initStore =
      .ok (.int 7) ⟨[⟨[]⟩, ⟨[("x", Val.int 7)]⟩], [(1, "x", Val.int 7)]⟩ :=
  ⟨(c7_field_access_strict 1 (.literal (.int 1)) "x" globalCtx initStore initStore
      (.int 1) (by decide)).1 (fun a h => Val.noConfusion h),
   ((c7_field_access_strict 3 (.recE .nil) "x" globalCtx initStore
      ⟨[⟨[]⟩, ⟨[]⟩], []⟩ (.recV 1) (by decide)).2 1 rfl).1 (by decide),
   ((c7_field_access_strict 4 (.recE (.cons "x" (.literal (.int 7)) .nil)) "x" globalCtx
      initStore ⟨[⟨[]⟩, ⟨[("x", Val.int 7)]⟩], [(1, "x", Val.int 7)]⟩ (.recV 1)
      (by decide)).2 1 rfl).2 (.int 7) (by decide)⟩

/-- C8 counterexample: at `1 << 2` the evaluator neither produces a shifted
value nor returns an "unsupported operator" `EvalError`: it panics via
`todo!()` with the message "not yet implemented". -/
theorem c8_shift_counterexample :
    evalGlobal 2 (.binExpr (.literal (.int 1)) .shiftLeft (.literal (.int 2))) =
      .panicked "not yet implemented" := by
  decide

/-- C8 (corrected).  Amended claim: for `ShiftLeft`/`ShiftRight`, once both
operands have evaluated, the evaluator fails fast by panicking with the
`todo!()` message "not yet implemented"; it never silently produces a value
(and never returns an `EvalError` either). -/
theorem c8_shift_todo_panic (fuel : Nat) (le re : Expr) (op : BinOp) (ctx : Ctx)
    (s s1 s2 : Store) (lv rv : Val)
    (hop : op = BinOp.shiftLeft ∨ op = BinOp.shiftRight)
    (hle : evalE fuel le ctx s = .ok lv s1)
    (hre : evalE fuel re ctx s1 = .ok rv s2) :
    evalE (fuel + 1) (.binExpr le op re) ctx s = .panicked "not yet implemented" := by
  rcases hop with rfl | rfl <;> simp only [evalE, hle, hre]

/-- Witness for C8: `1 >> 2` panics with "not yet implemented". -/
theorem c8_shift_todo_panic_witness :
    evalE 2 (.binExpr (.literal (.int 1)) .shiftRight (.literal (.int 2))) globalCtx
      initStore = .panicked "not yet implemented" :=
  c8_shift_todo_panic 1 (.literal (.int 1)) (.literal (.int 2)) .shiftRight globalCtx
    initStore initStore initStore (.int 1) (.int 2) (Or.inr rfl) (by decide) (by decide)

/-- C9 (confirmed).  Integer arithmetic is unguarded machine arithmetic: an
`Int / Int` expression with zero divisor panics (the `EvalError` branch is
not reached — the result is `panicked`, not `err`), and `i64` overflow
(here `i64::MAX + 1`) likewise panics in a debug build. -/
theorem c9_unguarded_int_arithmetic :
    (∀ (a : Int) (fuel : Nat) (ctx : Ctx) (s : Store),
      evalE (fuel + 2) (.binExpr (.literal (.int a)) .div (.literal (.int 0))) ctx s =
        .panicked "attempt to divide by zero") ∧
    evalGlobal 2 (.binExpr (.literal (.int i64Max)) .plus (.literal (.int 1))) =
      .panicked "attempt to add with overflow" := by
  constructor
  · intro a fuel ctx s
    simp [evalE, numericBinexpr, intArith, VRes.withStore]
  · decide

/-- C10 (confirmed).  The parser's shift-token mapping is swapped relative
to the AST's documented meaning: on every input, the token `>>` produces
`BinOp::ShiftLeft` and the token `<<` produces `BinOp::ShiftRight`; whole
parses of `1>>2` and `1<<2` agree. -/
theorem c10_shift_tokens_swapped :
    (∀ rest : List Char, binop .shift ('>' :: '>' :: rest) = some (.shiftLeft, rest)) ∧
    (∀ rest : List Char, binop .shift ('<' :: '<' :: rest) = some (.shiftRight, rest)) ∧
    expr_opt 50 "1>>2" = some (.binExpr (.literal (.int 1)) .shiftLeft (.literal (.int 2))) ∧
    expr_opt 50 "1<<2" = some (.binExpr (.literal (.int 1)) .shiftRight (.literal (.int 2))) :=
  ⟨fun _ => rfl, fun _ => rfl, by decide, by decide⟩

end Konfi
